import Mathlib

/-!
Shallow embedding of `cartographer_ros/sensor_bridge.cc` (the SensorBridge
message-translation adapter) and proofs about its behaviour.

Modelling conventions:
* `carto::common::Time` and ROS times are modelled as exact rationals
  (seconds); `FromSeconds` is then the identity on seconds and time
  arithmetic is exact.
* Float scalar payloads (coordinates, per-point times) are modelled as
  rationals; each raw point carries a `bad : Bool` flag standing for
  `isnan(point) || isinf(point)` (rationals have no NaN/infinity, so the
  flag carries the finiteness information of the wire floats).
* Rotations are modelled as 3x3 rational matrices; `Rigid3d` is a rotation
  together with a translation, with composition, inverse (transpose-based,
  matching the quaternion-conjugate inverse on orthogonal rotations) and
  action on points as in `cartographer::transform`.
* External collaborators (the tf lookup `TfBridge::LookupToTracking`, the
  ROS-to-internal time conversion `FromRos`, and the geodetic helpers
  `ComputeLocalFrameFromLatLong` / `LatLongAltToEcef`, all defined outside
  this source file) are parameters gathered in an `Env` record.
* A `CHECK`/`CHECK_NE` failure aborts the process, so no sensor data is
  forwarded; in `ToImuData` this is modelled by returning `none`.
-/

/-- A 3-vector with rational components (models `Eigen::Vector3d`). -/
structure Vec3 where
  x : ℚ
  y : ℚ
  z : ℚ
deriving DecidableEq, Repr

def Vec3.add (u v : Vec3) : Vec3 := ⟨u.x + v.x, u.y + v.y, u.z + v.z⟩

def Vec3.neg (v : Vec3) : Vec3 := ⟨-v.x, -v.y, -v.z⟩

/-- Squared Euclidean norm of a 3-vector. -/
def Vec3.normSq (v : Vec3) : ℚ := v.x * v.x + v.y * v.y + v.z * v.z

/-- A 3x3 matrix with rational entries, row-major (models a rotation). -/
structure Mat3 where
  m00 : ℚ
  m01 : ℚ
  m02 : ℚ
  m10 : ℚ
  m11 : ℚ
  m12 : ℚ
  m20 : ℚ
  m21 : ℚ
  m22 : ℚ
deriving DecidableEq, Repr

def Mat3.mulVec (m : Mat3) (v : Vec3) : Vec3 :=
  ⟨m.m00 * v.x + m.m01 * v.y + m.m02 * v.z,
   m.m10 * v.x + m.m11 * v.y + m.m12 * v.z,
   m.m20 * v.x + m.m21 * v.y + m.m22 * v.z⟩

def Mat3.mul (a b : Mat3) : Mat3 :=
  ⟨a.m00 * b.m00 + a.m01 * b.m10 + a.m02 * b.m20,
   a.m00 * b.m01 + a.m01 * b.m11 + a.m02 * b.m21,
   a.m00 * b.m02 + a.m01 * b.m12 + a.m02 * b.m22,
   a.m10 * b.m00 + a.m11 * b.m10 + a.m12 * b.m20,
   a.m10 * b.m01 + a.m11 * b.m11 + a.m12 * b.m21,
   a.m10 * b.m02 + a.m11 * b.m12 + a.m12 * b.m22,
   a.m20 * b.m00 + a.m21 * b.m10 + a.m22 * b.m20,
   a.m20 * b.m01 + a.m21 * b.m11 + a.m22 * b.m21,
   a.m20 * b.m02 + a.m21 * b.m12 + a.m22 * b.m22⟩

def Mat3.transpose (m : Mat3) : Mat3 :=
  ⟨m.m00, m.m10, m.m20, m.m01, m.m11, m.m21, m.m02, m.m12, m.m22⟩

/-- The identity rotation. -/
def Mat3.id : Mat3 := ⟨1, 0, 0, 0, 1, 0, 0, 0, 1⟩

/-- Models `cartographer::transform::Rigid3d`: a rotation plus a
translation. -/
structure Rigid3d where
  rotation : Mat3
  translation : Vec3
deriving DecidableEq, Repr

/-- Composition of rigid transforms, `a * b` in the source. -/
def Rigid3d.mul (a b : Rigid3d) : Rigid3d :=
  ⟨a.rotation.mul b.rotation, (a.rotation.mulVec b.translation).add a.translation⟩

/-- Models `Rigid3d::inverse()`: the rotation is inverted (transpose of an
orthogonal rotation matrix, matching the quaternion conjugate), and the
translation becomes `-(R⁻¹ t)`. -/
def Rigid3d.inverse (g : Rigid3d) : Rigid3d :=
  ⟨g.rotation.transpose, (g.rotation.transpose.mulVec g.translation).neg⟩

/-- Action of a rigid transform on a point, `g * v` in the source. -/
def Rigid3d.apply (g : Rigid3d) (v : Vec3) : Vec3 :=
  (g.rotation.mulVec v).add g.translation

/-- Models `Rigid3d::Translation(v)`: identity rotation with translation `v`. -/
def Rigid3d.Translation (v : Vec3) : Rigid3d := ⟨Mat3.id, v⟩

/-- Internal time `carto::common::Time`, modelled as rational seconds. -/
abbrev Time := ℚ

/-- A ROS timestamp, modelled as rational seconds. -/
abbrev RosTime := ℚ

/-- A ROS message header: stamp and frame id. -/
structure Header where
  stamp : RosTime
  frame_id : String
deriving DecidableEq, Repr

/-- One element of `carto::sensor::TimedPointCloud` (`Eigen::Vector4f`):
spatial coordinates plus a relative-time fourth component. -/
structure TimedPoint where
  x : ℚ
  y : ℚ
  z : ℚ
  t : ℚ
deriving DecidableEq, Repr

/-- Default point used only to give `getLastD` a value on lists already
known to be non-empty. -/
def TimedPoint.dfl : TimedPoint := ⟨0, 0, 0, 0⟩

/-- Models `nav_msgs::Odometry`, reduced to the fields `SensorBridge` reads;
`pose` stands for `ToRigid3d(msg->pose.pose)`. -/
structure OdometryMsg where
  header : Header
  child_frame_id : String
  pose : Rigid3d
deriving DecidableEq, Repr

/-- Models `sensor_msgs::Imu`, reduced to the fields `SensorBridge` reads. -/
structure ImuMsg where
  header : Header
  linear_acceleration_covariance0 : ℚ
  angular_velocity_covariance0 : ℚ
  linear_acceleration : Vec3
  angular_velocity : Vec3
deriving DecidableEq, Repr

/-- Models `sensor_msgs::NavSatStatus::STATUS_NO_FIX`. -/
def STATUS_NO_FIX : Int := -1

/-- Models `sensor_msgs::NavSatFix`, reduced to the fields `SensorBridge` reads. -/
structure NavSatFixMsg where
  header : Header
  status : Int
  latitude : ℚ
  longitude : ℚ
  altitude : ℚ
deriving DecidableEq, Repr

/-- A raw deserialized point of a `sensor_msgs::PointCloud2` cloud as
produced by `pcl::fromROSMsg`: coordinates, the per-point time field read
by the matching branch (`t` scaled by 1e-9 for ouster, `time` for
velodyne, `timestamp` for robosense; unused in the default branch), and a
`bad` flag standing for `isnan(point) || isinf(point)`. -/
structure RawPoint where
  x : ℚ
  y : ℚ
  z : ℚ
  t : ℚ
  bad : Bool
deriving DecidableEq, Repr

/-- Default raw point for `getLastD` on non-empty lists. -/
def RawPoint.dfl : RawPoint := ⟨0, 0, 0, 0, false⟩

/-- Models `sensor_msgs::PointCloud2` after deserialization. -/
structure PointCloud2Msg where
  header : Header
  points : List RawPoint
deriving DecidableEq, Repr

/-- Models `carto::sensor::OdometryData`. -/
structure OdometryData where
  time : Time
  pose : Rigid3d
deriving DecidableEq, Repr

/-- Models `carto::sensor::ImuData`. -/
structure ImuData where
  time : Time
  linear_acceleration : Vec3
  angular_velocity : Vec3
deriving DecidableEq, Repr

/-- Models `carto::sensor::FixedFramePoseData`; `pose = none` models the empty
`optional<Rigid3d>()`. -/
structure FixedFramePoseData where
  time : Time
  pose : Option Rigid3d
deriving DecidableEq, Repr

/-- Models `carto::sensor::TimedPointCloudData`. -/
structure TimedPointCloudData where
  time : Time
  origin : Vec3
  ranges : List TimedPoint
deriving DecidableEq, Repr

/-- Models `carto::sensor::LandmarkData`, an opaque external payload (the
conversion `ToLandmarkData` lives outside this source file). -/
structure LandmarkData where
  payload : ℚ
deriving DecidableEq, Repr

/-- A typed sensor record passed to
`TrajectoryBuilderInterface::AddSensorData`. -/
inductive SensorData where
  | odometry (d : OdometryData)
  | imu (d : ImuData)
  | fixedFramePose (d : FixedFramePoseData)
  | timedPointCloud (d : TimedPointCloudData)
  | landmark (d : LandmarkData)
deriving DecidableEq, Repr

/-- One call to `trajectory_builder_->AddSensorData(sensor_id, data)`. -/
structure Forwarded where
  sensor_id : String
  data : SensorData
deriving DecidableEq, Repr

/-- The external collaborators of `SensorBridge`, plus its configuration:
`FromRos` (time conversion), `TfBridge::LookupToTracking` (frame lookup,
`none` models a null result), the geodetic helpers of `msg_conversion`,
and `num_subdivisions_per_laser_scan_`. -/
structure Env where
  fromRos : RosTime → Time
  lookupToTracking : Time → String → Option Rigid3d
  computeLocalFrameFromLatLong : ℚ → ℚ → Rigid3d
  latLongAltToEcef : ℚ → ℚ → ℚ → Vec3
  num_subdivisions_per_laser_scan : Nat

/-- The mutable member state of `SensorBridge`:
`sensor_to_previous_subdivision_time_` (a `std::map`, modelled as an
association list) and `ecef_to_local_frame_`. -/
structure State where
  sensor_to_previous_subdivision_time : List (String × Time)
  ecef_to_local_frame : Option Rigid3d
deriving DecidableEq, Repr

/-- The freshly constructed bridge: empty map, unset local frame. -/
def State.init : State := ⟨[], none⟩

/-- Models `map::find` on the association-list model. -/
def mapFind (m : List (String × Time)) (k : String) : Option Time :=
  match m with
  | [] => none
  | p :: rest => if p.1 = k then some p.2 else mapFind rest k

/-- Models `map::operator[] = v` on the association-list model: replace the
binding if present, append otherwise. -/
def mapInsert (m : List (String × Time)) (k : String) (v : Time) :
    List (String × Time) :=
  match m with
  | [] => [(k, v)]
  | p :: rest => if p.1 = k then (k, v) :: rest else p :: mapInsert rest k v

/-- Models `CheckNoLeadingSlash` from the anonymous namespace of
`sensor_bridge.cc`: strips one leading slash when the id has length > 1
and starts with `/`; otherwise (including the lone string `/`, which is
only logged) returns the input unchanged. -/
def CheckNoLeadingSlash (frame_id : String) : String :=
  if 0 < frame_id.length then
    if frame_id.front = Char.ofNat 47 then
      if 1 < frame_id.length then frame_id.drop 1 else frame_id
    else frame_id
  else frame_id

/-- Models `SensorBridge::ToOdometryData`: convert the header stamp, look up the
child frame relative to the tracking frame at that time, and on success
return the record with pose `ToRigid3d(msg->pose.pose) *
sensor_to_tracking->inverse()`. -/
def ToOdometryData (env : Env) (msg : OdometryMsg) : Option OdometryData :=
  let time := env.fromRos msg.header.stamp
  match env.lookupToTracking time (CheckNoLeadingSlash msg.child_frame_id) with
  | none => none
  | some sensor_to_tracking =>
      some ⟨time, msg.pose.mul sensor_to_tracking.inverse⟩

/-- Models `SensorBridge::HandleOdometryMessage`: forward the converted record
when the conversion succeeded. -/
def HandleOdometryMessage (env : Env) (sensor_id : String)
    (msg : OdometryMsg) : List Forwarded :=
  match ToOdometryData env msg with
  | none => []
  | some odometry_data =>
      [⟨sensor_id, .odometry ⟨odometry_data.time, odometry_data.pose⟩⟩]

/-- Models `SensorBridge::ToImuData`: the two `CHECK_NE` covariance assertions
and the colocation `CHECK` abort the process on failure (modelled as
`none`: nothing is forwarded); otherwise the frame is looked up at the
message stamp and on success the acceleration and angular velocity are
rotated into the tracking frame. The colocation check
`translation().norm() < 1e-5` is expressed on the squared norm. -/
def ToImuData (env : Env) (msg : ImuMsg) : Option ImuData :=
  if msg.linear_acceleration_covariance0 = -1 then none
  else if msg.angular_velocity_covariance0 = -1 then none
  else
    let time := env.fromRos msg.header.stamp
    match env.lookupToTracking time (CheckNoLeadingSlash msg.header.frame_id) with
    | none => none
    | some sensor_to_tracking =>
        if sensor_to_tracking.translation.normSq < 1 / 10 ^ 10 then
          some ⟨time,
                sensor_to_tracking.rotation.mulVec msg.linear_acceleration,
                sensor_to_tracking.rotation.mulVec msg.angular_velocity⟩
        else none

/-- Models `SensorBridge::HandleImuMessage`. -/
def HandleImuMessage (env : Env) (sensor_id : String) (msg : ImuMsg) :
    List Forwarded :=
  match ToImuData env msg with
  | none => []
  | some imu_data =>
      [⟨sensor_id, .imu ⟨imu_data.time, imu_data.linear_acceleration,
                         imu_data.angular_velocity⟩⟩]

/-- Models `SensorBridge::HandleNavSatFixMessage`: a `STATUS_NO_FIX` message
forwards an absent pose and leaves the state alone; otherwise the ECEF to
local frame is computed from this message's latitude/longitude if not yet
set, and the fix is converted through the (possibly freshly set) frame. -/
def HandleNavSatFixMessage (env : Env) (st : State) (sensor_id : String)
    (msg : NavSatFixMsg) : List Forwarded × State :=
  let time := env.fromRos msg.header.stamp
  if msg.status = STATUS_NO_FIX then
    ([⟨sensor_id, .fixedFramePose ⟨time, none⟩⟩], st)
  else
    let frame :=
      match st.ecef_to_local_frame with
      | some f => f
      | none => env.computeLocalFrameFromLatLong msg.latitude msg.longitude
    let st' : State := { st with ecef_to_local_frame := some frame }
    ([⟨sensor_id, .fixedFramePose
        ⟨time, some (Rigid3d.Translation (frame.apply
          (env.latLongAltToEcef msg.latitude msg.longitude msg.altitude)))⟩⟩],
     st')

/-- Models `SensorBridge::HandleLandmarkMessage` (the conversion `ToLandmarkData`
is external; the message model carries its result). -/
def HandleLandmarkMessage (sensor_id : String) (d : LandmarkData) :
    List Forwarded :=
  [⟨sensor_id, .landmark d⟩]

/-- Models `carto::sensor::TransformTimedPointCloud` on one point: the spatial
part is transformed, the time component is kept. -/
def transformTimedPoint (g : Rigid3d) (p : TimedPoint) : TimedPoint :=
  let v := g.apply ⟨p.x, p.y, p.z⟩
  ⟨v.x, v.y, v.z, p.t⟩

/-- Models `SensorBridge::HandleRangefinder`: look up the sensor frame at the
cloud time; on success forward the cloud transformed into the tracking
frame with the transform's translation as origin, on failure forward
nothing. -/
def HandleRangefinder (env : Env) (sensor_id : String) (time : Time)
    (frame_id : String) (ranges : List TimedPoint) : List Forwarded :=
  match env.lookupToTracking time (CheckNoLeadingSlash frame_id) with
  | none => []
  | some sensor_to_tracking =>
      [⟨sensor_id, .timedPointCloud
          ⟨time, sensor_to_tracking.translation,
           ranges.map (transformTimedPoint sensor_to_tracking)⟩⟩]

/-- The slice of the point list taken by subdivision `i` of `k` in
`SensorBridge::HandleLaserScan`: indices `n*i/k` (inclusive) to
`n*(i+1)/k` (exclusive) under integer division. -/
def subdivisionSlice (points : List TimedPoint) (k i : Nat) :
    List TimedPoint :=
  let n := points.length
  ((points.drop (n * i / k)).take (n * (i + 1) / k - n * i / k))

/-- Re-base one point of a subdivision: `point[3] -= time_to_subdivision_end`. -/
def rebasePoint (time_to_subdivision_end : ℚ) (p : TimedPoint) : TimedPoint :=
  ⟨p.x, p.y, p.z, p.t - time_to_subdivision_end⟩

/-- One iteration of the subdivision loop of
`SensorBridge::HandleLaserScan`: returns the subdivision handed to
`HandleRangefinder` (if any) and the updated per-sensor map. An empty
index range is skipped; a subdivision whose end time is not after the
recorded previous subdivision time of this sensor is skipped with the map
unchanged; otherwise the map records the new subdivision time and the
points are re-based to the subdivision end. -/
def HandleLaserScanStep (sensor_id : String) (time : Time)
    (points : List TimedPoint) (k : Nat) (st : List (String × Time))
    (i : Nat) : Option (Time × List TimedPoint) × List (String × Time) :=
  let n := points.length
  let start_index := n * i / k
  let end_index := n * (i + 1) / k
  if start_index = end_index then (none, st)
  else
    let subdivision := subdivisionSlice points k i
    let time_to_subdivision_end := (subdivision.getLastD TimedPoint.dfl).t
    let subdivision_time := time + time_to_subdivision_end
    match mapFind st sensor_id with
    | some prev =>
        if subdivision_time ≤ prev then (none, st)
        else (some (subdivision_time,
                    subdivision.map (rebasePoint time_to_subdivision_end)),
              mapInsert st sensor_id subdivision_time)
    | none =>
        (some (subdivision_time,
               subdivision.map (rebasePoint time_to_subdivision_end)),
         mapInsert st sensor_id subdivision_time)

/-- Run the subdivision loop over the given iteration indices, collecting
the subdivisions handed to `HandleRangefinder` in order. -/
def runLaserScanSteps (sensor_id : String) (time : Time)
    (points : List TimedPoint) (k : Nat) (st : List (String × Time)) :
    List Nat → List (Time × List TimedPoint) × List (String × Time)
  | [] => ([], st)
  | i :: rest =>
      let r := HandleLaserScanStep sensor_id time points k st i
      let r' := runLaserScanSteps sensor_id time points k r.2 rest
      (r.1.toList ++ r'.1, r'.2)

/-- Models `SensorBridge::HandleLaserScan`: nothing happens on an empty cloud;
otherwise the loop runs for `i = 0, ..., k-1` with
`k = num_subdivisions_per_laser_scan_`. The result is the list of
(subdivision time, re-based points) pairs handed to `HandleRangefinder`
and the updated per-sensor map. -/
def HandleLaserScan (sensor_id : String) (time : Time)
    (points : List TimedPoint) (k : Nat) (st : List (String × Time)) :
    List (Time × List TimedPoint) × List (String × Time) :=
  if points.isEmpty then ([], st)
  else runLaserScanSteps sensor_id time points k st (List.range k)

/-- The point-conversion loop shared by the branches of
`SensorBridge::HandlePointCloud2Message`: skip points whose float fields
are NaN or infinite, convert the rest in order. -/
def convertPoints (f : RawPoint → TimedPoint) :
    List RawPoint → List TimedPoint
  | [] => []
  | p :: rest =>
      if p.bad then convertPoints f rest else f p :: convertPoints f rest

/-- Models `SensorBridge::HandlePointCloud2Message`, up to the call to
`HandleRangefinder`: produces the converted cloud and its stamp per
sensor type. For "ouster" the per-point time is `t * 1e-9`; for
"velodyne" it is `time`; for "robosense" it is `timestamp` (all carried
in the model's `t` field); in each of these the time of the raw cloud's
last point is subtracted from every point, and for ouster/velodyne the
stamp is advanced by it; the default branch stamps every point 0. -/
def PointCloud2Conversion (env : Env) (msg : PointCloud2Msg)
    (sensor_type : String) : List TimedPoint × Time :=
  if sensor_type = "ouster" then
    let rel_time_last := (msg.points.getLastD RawPoint.dfl).t * (1 / 10 ^ 9)
    (convertPoints
      (fun p => ⟨p.x, p.y, p.z, p.t * (1 / 10 ^ 9) - rel_time_last⟩)
      msg.points,
     env.fromRos msg.header.stamp + rel_time_last)
  else if sensor_type = "velodyne" then
    let rel_time_last := (msg.points.getLastD RawPoint.dfl).t
    (convertPoints (fun p => ⟨p.x, p.y, p.z, p.t - rel_time_last⟩) msg.points,
     env.fromRos msg.header.stamp + rel_time_last)
  else if sensor_type = "robosense" then
    let rel_time_last := (msg.points.getLastD RawPoint.dfl).t
    (convertPoints (fun p => ⟨p.x, p.y, p.z, p.t - rel_time_last⟩) msg.points,
     env.fromRos msg.header.stamp)
  else
    (convertPoints (fun p => ⟨p.x, p.y, p.z, 0⟩) msg.points,
     env.fromRos msg.header.stamp)

/-- Models `SensorBridge::HandlePointCloud2Message`: convert per sensor type and
hand the cloud to `HandleRangefinder`. -/
def HandlePointCloud2Message (env : Env) (sensor_id : String)
    (msg : PointCloud2Msg) (sensor_type : String) : List Forwarded :=
  let c := PointCloud2Conversion env msg sensor_type
  HandleRangefinder env sensor_id c.2 msg.header.frame_id c.1

/-- A message dispatched to `SensorBridge`. Laser scans carry the result
of the external `ToPointCloudWithIntensities` conversion (time and
points); landmark lists carry the result of the external
`ToLandmarkData`. -/
inductive Msg where
  | odometry (sensor_id : String) (m : OdometryMsg)
  | imu (sensor_id : String) (m : ImuMsg)
  | navSatFix (sensor_id : String) (m : NavSatFixMsg)
  | laserScan (sensor_id : String) (time : Time) (frame_id : String)
      (points : List TimedPoint)
  | pointCloud2 (sensor_id : String) (m : PointCloud2Msg)
      (sensor_type : String)
  | landmark (sensor_id : String) (d : LandmarkData)
deriving DecidableEq, Repr

/-- Dispatch one message to the matching handler, returning the records
forwarded to the trajectory builder and the state after the call. -/
def handleMessage (env : Env) (st : State) : Msg → List Forwarded × State
  | .odometry sensor_id m => (HandleOdometryMessage env sensor_id m, st)
  | .imu sensor_id m => (HandleImuMessage env sensor_id m, st)
  | .navSatFix sensor_id m => HandleNavSatFixMessage env st sensor_id m
  | .laserScan sensor_id time frame_id points =>
      let r := HandleLaserScan sensor_id time points
        env.num_subdivisions_per_laser_scan
        st.sensor_to_previous_subdivision_time
      ((r.1.map (fun s => HandleRangefinder env sensor_id s.1 frame_id s.2)).flatten,
       { st with sensor_to_previous_subdivision_time := r.2 })
  | .pointCloud2 sensor_id m sensor_type =>
      (HandlePointCloud2Message env sensor_id m sensor_type, st)
  | .landmark sensor_id d => (HandleLandmarkMessage sensor_id d, st)

/-- Run a sequence of messages from a state, returning the final state. -/
def runMessages (env : Env) (st : State) : List Msg → State
  | [] => st
  | m :: rest => runMessages env (handleMessage env st m).2 rest

/-- Run `HandleLaserScan` over a sequence of laser scans for one sensor,
collecting all subdivisions handed to `HandleRangefinder` in order. -/
def runLaserScans (sensor_id : String) (k : Nat) (st : List (String × Time)) :
    List (Time × List TimedPoint) →
      List (Time × List TimedPoint) × List (String × Time)
  | [] => ([], st)
  | (time, points) :: rest =>
      let r := HandleLaserScan sensor_id time points k st
      let r' := runLaserScans sensor_id k r.2 rest
      (r.1 ++ r'.1, r'.2)

/-- Invariant tying a run of the subdivision machinery to the per-sensor
map: the previously recorded time (if any) followed by the emitted
subdivision times is strictly increasing, every one of those times is
bounded by the final recorded time (when present), and the recorded time
can only disappear if it was never there and nothing was emitted. -/
def ScanInv (sensor_id : String) (st : List (String × Time))
    (outs : List (Time × List TimedPoint))
    (st' : List (String × Time)) : Prop :=
  List.Chain' (· < ·)
    ((mapFind st sensor_id).toList ++ outs.map Prod.fst)
  ∧ (∀ x ∈ (mapFind st sensor_id).toList ++ outs.map Prod.fst,
      ∀ y, mapFind st' sensor_id = some y → x ≤ y)
  ∧ (mapFind st' sensor_id = none →
      mapFind st sensor_id = none ∧ outs = [])

/-! ### Shared concrete instances used by the witnesses -/

/-- A concrete rigid transform: identity rotation, zero translation. -/
def gW : Rigid3d := ⟨Mat3.id, ⟨0, 0, 0⟩⟩

/-- A concrete environment: identity time conversion, a lookup that fails
exactly on the frame id "gone" and otherwise returns `gW`, simple
geodetic helpers, and two subdivisions per laser scan. -/
def envW : Env :=
  { fromRos := fun t => t
    lookupToTracking := fun _ fid => if fid = "gone" then none else some gW
    computeLocalFrameFromLatLong := fun lat long => Rigid3d.Translation ⟨lat, long, 0⟩
    latLongAltToEcef := fun lat long alt => ⟨lat, long, alt⟩
    num_subdivisions_per_laser_scan := 2 }

/-- A concrete three-point cloud (middle point has non-finite fields). -/
def msgPC : PointCloud2Msg :=
  ⟨⟨100, "pc"⟩, [⟨1, 1, 1, 10, false⟩, ⟨2, 2, 2, 5, true⟩, ⟨3, 3, 3, 20, false⟩]⟩

/-! ### C10: CheckNoLeadingSlash -/

/-- Claim C10: `CheckNoLeadingSlash` removes exactly one leading slash
when the frame id has length greater than 1 and begins with a slash; in
every other case (the empty string, the one-character string containing
only a slash, or any string not beginning with a slash) it returns the
input unchanged. -/
theorem checkNoLeadingSlash_spec (s : String) :
    (1 < s.length → s.front = Char.ofNat 47 →
        CheckNoLeadingSlash s = s.drop 1)
    ∧ (¬ (1 < s.length ∧ s.front = Char.ofNat 47) →
        CheckNoLeadingSlash s = s) := by
  constructor
  · intro hlen hfront
    unfold CheckNoLeadingSlash
    split_ifs with h0
    · rfl
    · omega
  · intro h
    unfold CheckNoLeadingSlash
    split_ifs with h0 hf h1
    · exact absurd ⟨h1, hf⟩ h
    · rfl
    · rfl
    · rfl

/-- Witness for C10 at the concrete frame ids "/odom", "/" and "odom". -/
theorem checkNoLeadingSlash_spec_witness :
    CheckNoLeadingSlash "/odom" = "odom"
    ∧ CheckNoLeadingSlash "/" = "/"
    ∧ CheckNoLeadingSlash "odom" = "odom" := by
  refine ⟨?_, ?_, ?_⟩
  · have h := (checkNoLeadingSlash_spec "/odom").1 (by decide) (by decide)
    simpa using h
  · exact (checkNoLeadingSlash_spec "/").2 (by decide)
  · exact (checkNoLeadingSlash_spec "odom").2 (by decide)

/-! ### C7: ToOdometryData conversion -/

/-- Claim C7: when the transform lookup succeeds, `ToOdometryData`
returns the record whose time is the converted header stamp and whose
pose is the message pose composed with the inverse of the
sensor-to-tracking transform at that time. -/
theorem toOdometryData_spec (env : Env) (msg : OdometryMsg) (g : Rigid3d)
    (h : env.lookupToTracking (env.fromRos msg.header.stamp)
        (CheckNoLeadingSlash msg.child_frame_id) = some g) :
    ToOdometryData env msg =
      some ⟨env.fromRos msg.header.stamp, msg.pose.mul g.inverse⟩ := by
  simp only [ToOdometryData, h]

/-- Witness for C7 at a concrete environment and odometry message. -/
theorem toOdometryData_spec_witness :
    ToOdometryData envW ⟨⟨5, "base"⟩, "odom", gW⟩ =
      some ⟨5, gW.mul gW.inverse⟩ := by
  exact toOdometryData_spec envW ⟨⟨5, "base"⟩, "odom", gW⟩ gW (by decide)

/-! ### C5: measurements are expressed in the tracking frame -/

/-- Claim C5: every forwarded measurement is expressed in the tracking
frame. A rangefinder cloud whose frame lookup succeeds is forwarded with
every point transformed by the sensor-to-tracking transform and with the
record origin equal to that transform's translation; an IMU message whose
checks and frame lookup succeed yields linear acceleration and angular
velocity rotated by the sensor-to-tracking rotation. -/
theorem measurements_in_tracking_frame (env : Env) :
    (∀ (sensor_id : String) (time : Time) (frame_id : String)
        (ranges : List TimedPoint) (g : Rigid3d),
        env.lookupToTracking time (CheckNoLeadingSlash frame_id) = some g →
        HandleRangefinder env sensor_id time frame_id ranges =
          [⟨sensor_id, .timedPointCloud
              ⟨time, g.translation, ranges.map (transformTimedPoint g)⟩⟩])
    ∧ (∀ (msg : ImuMsg) (g : Rigid3d),
        msg.linear_acceleration_covariance0 ≠ -1 →
        msg.angular_velocity_covariance0 ≠ -1 →
        env.lookupToTracking (env.fromRos msg.header.stamp)
            (CheckNoLeadingSlash msg.header.frame_id) = some g →
        g.translation.normSq < 1 / 10 ^ 10 →
        ToImuData env msg =
          some ⟨env.fromRos msg.header.stamp,
                g.rotation.mulVec msg.linear_acceleration,
                g.rotation.mulVec msg.angular_velocity⟩) := by
  constructor
  · intro sensor_id time frame_id ranges g h
    simp only [HandleRangefinder, h]
  · intro msg g h1 h2 hl hn
    simp only [ToImuData, if_neg h1, if_neg h2, hl, if_pos hn]

/-- Witness for C5 at a concrete environment, cloud and IMU message. -/
theorem measurements_in_tracking_frame_witness :
    HandleRangefinder envW "range0" 3 "laser" [⟨1, 2, 3, 0⟩] =
      [⟨"range0", .timedPointCloud
          ⟨3, gW.translation, [⟨1, 2, 3, 0⟩].map (transformTimedPoint gW)⟩⟩]
    ∧ ToImuData envW ⟨⟨3, "imu"⟩, 1, 1, ⟨1, 2, 3⟩, ⟨4, 5, 6⟩⟩ =
      some ⟨3, gW.rotation.mulVec ⟨1, 2, 3⟩, gW.rotation.mulVec ⟨4, 5, 6⟩⟩ := by
  constructor
  · exact (measurements_in_tracking_frame envW).1 "range0" 3 "laser"
      [⟨1, 2, 3, 0⟩] gW (by decide)
  · exact (measurements_in_tracking_frame envW).2
      ⟨⟨3, "imu"⟩, 1, 1, ⟨1, 2, 3⟩, ⟨4, 5, 6⟩⟩ gW
      (by norm_num) (by norm_num) (by decide) (by norm_num [gW, Vec3.normSq])

/-! ### C6: transform lookup failure forwards nothing -/

/-- Claim C6: for odometry and IMU messages the mounting frame is
resolved at the message's own converted stamp; if that lookup returns
null, no record is forwarded and the bridge state is unchanged, and if it
succeeds (and, for IMU, the assertions pass) exactly one record is
forwarded, again leaving the state unchanged. -/
theorem lookup_failure_forwards_nothing (env : Env) (st : State) :
    (∀ (sensor_id : String) (m : OdometryMsg),
        env.lookupToTracking (env.fromRos m.header.stamp)
            (CheckNoLeadingSlash m.child_frame_id) = none →
        handleMessage env st (.odometry sensor_id m) = ([], st))
    ∧ (∀ (sensor_id : String) (m : OdometryMsg) (g : Rigid3d),
        env.lookupToTracking (env.fromRos m.header.stamp)
            (CheckNoLeadingSlash m.child_frame_id) = some g →
        (handleMessage env st (.odometry sensor_id m)).1.length = 1
          ∧ (handleMessage env st (.odometry sensor_id m)).2 = st)
    ∧ (∀ (sensor_id : String) (m : ImuMsg),
        env.lookupToTracking (env.fromRos m.header.stamp)
            (CheckNoLeadingSlash m.header.frame_id) = none →
        handleMessage env st (.imu sensor_id m) = ([], st))
    ∧ (∀ (sensor_id : String) (m : ImuMsg) (g : Rigid3d),
        m.linear_acceleration_covariance0 ≠ -1 →
        m.angular_velocity_covariance0 ≠ -1 →
        env.lookupToTracking (env.fromRos m.header.stamp)
            (CheckNoLeadingSlash m.header.frame_id) = some g →
        g.translation.normSq < 1 / 10 ^ 10 →
        (handleMessage env st (.imu sensor_id m)).1.length = 1
          ∧ (handleMessage env st (.imu sensor_id m)).2 = st) := by
  refine ⟨?_, ?_, ?_, ?_⟩
  · intro sensor_id m h
    simp only [handleMessage, HandleOdometryMessage, ToOdometryData, h]
  · intro sensor_id m g h
    simp only [handleMessage, HandleOdometryMessage, ToOdometryData, h]
    refine ⟨?_, ?_⟩ <;> simp
  · intro sensor_id m h
    simp only [handleMessage, HandleImuMessage, ToImuData, h]
    split_ifs <;> rfl
  · intro sensor_id m g h1 h2 hl hn
    simp only [handleMessage, HandleImuMessage, ToImuData, if_neg h1,
      if_neg h2, hl, if_pos hn]
    refine ⟨?_, ?_⟩ <;> simp

/-- Witness for C6: a failing lookup (frame id "gone") forwards nothing,
and successful lookups forward exactly one record. -/
theorem lookup_failure_forwards_nothing_witness :
    handleMessage envW State.init
        (.odometry "o" ⟨⟨5, "base"⟩, "gone", gW⟩) = ([], State.init)
    ∧ (handleMessage envW State.init
        (.odometry "o" ⟨⟨5, "base"⟩, "odom", gW⟩)).1.length = 1
    ∧ handleMessage envW State.init
        (.imu "i" ⟨⟨3, "gone"⟩, 1, 1, ⟨1, 2, 3⟩, ⟨4, 5, 6⟩⟩) = ([], State.init)
    ∧ (handleMessage envW State.init
        (.imu "i" ⟨⟨3, "imu"⟩, 1, 1, ⟨1, 2, 3⟩, ⟨4, 5, 6⟩⟩)).1.length = 1 := by
  refine ⟨?_, ?_, ?_, ?_⟩
  · exact (lookup_failure_forwards_nothing envW State.init).1 "o"
      ⟨⟨5, "base"⟩, "gone", gW⟩ (by decide)
  · exact ((lookup_failure_forwards_nothing envW State.init).2.1 "o"
      ⟨⟨5, "base"⟩, "odom", gW⟩ gW (by decide)).1
  · exact (lookup_failure_forwards_nothing envW State.init).2.2.1 "i"
      ⟨⟨3, "gone"⟩, 1, 1, ⟨1, 2, 3⟩, ⟨4, 5, 6⟩⟩ (by decide)
  · exact ((lookup_failure_forwards_nothing envW State.init).2.2.2 "i"
      ⟨⟨3, "imu"⟩, 1, 1, ⟨1, 2, 3⟩, ⟨4, 5, 6⟩⟩ gW
      (by norm_num) (by norm_num) (by decide) (by norm_num [gW, Vec3.normSq])).1

/-! ### C8: the ECEF-to-local frame is write-once -/

/-- Claim C8: a `STATUS_NO_FIX` message forwards an absent pose and does
not touch the frame; a fix arriving while the frame is set converts
through that same frame and leaves it unchanged; a fix arriving while the
frame is unset computes it from this message's latitude and longitude and
stores it; and no handler ever changes a frame that has been set. -/
theorem ecef_frame_write_once (env : Env) :
    (∀ (st : State) (sensor_id : String) (m : NavSatFixMsg),
        m.status = STATUS_NO_FIX →
        HandleNavSatFixMessage env st sensor_id m =
          ([⟨sensor_id, .fixedFramePose ⟨env.fromRos m.header.stamp, none⟩⟩],
           st))
    ∧ (∀ (st : State) (sensor_id : String) (m : NavSatFixMsg) (f : Rigid3d),
        m.status ≠ STATUS_NO_FIX →
        st.ecef_to_local_frame = some f →
        HandleNavSatFixMessage env st sensor_id m =
          ([⟨sensor_id, .fixedFramePose
              ⟨env.fromRos m.header.stamp,
               some (Rigid3d.Translation (f.apply
                 (env.latLongAltToEcef m.latitude m.longitude m.altitude)))⟩⟩],
           st))
    ∧ (∀ (st : State) (sensor_id : String) (m : NavSatFixMsg),
        m.status ≠ STATUS_NO_FIX →
        st.ecef_to_local_frame = none →
        HandleNavSatFixMessage env st sensor_id m =
          ([⟨sensor_id, .fixedFramePose
              ⟨env.fromRos m.header.stamp,
               some (Rigid3d.Translation
                 ((env.computeLocalFrameFromLatLong m.latitude m.longitude).apply
                   (env.latLongAltToEcef m.latitude m.longitude m.altitude)))⟩⟩],
           { st with ecef_to_local_frame := some (env.computeLocalFrameFromLatLong m.latitude m.longitude) }))
    ∧ (∀ (st : State) (msg : Msg) (f : Rigid3d),
        st.ecef_to_local_frame = some f →
        ((handleMessage env st msg).2).ecef_to_local_frame = some f) := by
  refine ⟨?_, ?_, ?_, ?_⟩
  · intro st sensor_id m h
    simp only [HandleNavSatFixMessage, if_pos h]
  · intro st sensor_id m f hs hf
    obtain ⟨mp, ec⟩ := st
    simp only at hf
    subst hf
    simp only [HandleNavSatFixMessage, if_neg hs]
  · intro st sensor_id m hs hf
    obtain ⟨mp, ec⟩ := st
    simp only at hf
    subst hf
    simp only [HandleNavSatFixMessage, if_neg hs]
  · intro st msg f hf
    cases msg with
    | odometry sensor_id m => simpa [handleMessage] using hf
    | imu sensor_id m => simpa [handleMessage] using hf
    | navSatFix sensor_id m =>
        simp only [handleMessage, HandleNavSatFixMessage]
        split_ifs with hs
        · exact hf
        · obtain ⟨mp, ec⟩ := st
          simp only at hf
          subst hf
          rfl
    | laserScan sensor_id time frame_id points =>
        simpa [handleMessage] using hf
    | pointCloud2 sensor_id m sensor_type => simpa [handleMessage] using hf
    | landmark sensor_id d => simpa [handleMessage] using hf

/-- Witness for C8 at concrete states and messages: a no-fix message, a
fix with the frame already set, a fix with the frame unset, and a
non-GPS message leaving a set frame alone. -/
theorem ecef_frame_write_once_witness :
    HandleNavSatFixMessage envW State.init "g" ⟨⟨7, "gps"⟩, -1, 2, 3, 4⟩ =
      ([⟨"g", .fixedFramePose ⟨7, none⟩⟩], State.init)
    ∧ HandleNavSatFixMessage envW ⟨[], some gW⟩ "g" ⟨⟨7, "gps"⟩, 0, 2, 3, 4⟩ =
      ([⟨"g", .fixedFramePose
          ⟨7, some (Rigid3d.Translation (gW.apply ⟨2, 3, 4⟩))⟩⟩],
       ⟨[], some gW⟩)
    ∧ HandleNavSatFixMessage envW State.init "g" ⟨⟨7, "gps"⟩, 0, 2, 3, 4⟩ =
      ([⟨"g", .fixedFramePose
          ⟨7, some (Rigid3d.Translation
            ((envW.computeLocalFrameFromLatLong 2 3).apply ⟨2, 3, 4⟩))⟩⟩],
       ⟨[], some (envW.computeLocalFrameFromLatLong 2 3)⟩)
    ∧ ((handleMessage envW ⟨[], some gW⟩ (.landmark "l" ⟨0⟩)).2).ecef_to_local_frame
        = some gW := by
  refine ⟨?_, ?_, ?_, ?_⟩
  · exact (ecef_frame_write_once envW).1 State.init "g"
      ⟨⟨7, "gps"⟩, -1, 2, 3, 4⟩ (by decide)
  · exact (ecef_frame_write_once envW).2.1 ⟨[], some gW⟩ "g"
      ⟨⟨7, "gps"⟩, 0, 2, 3, 4⟩ gW (by decide) rfl
  · exact (ecef_frame_write_once envW).2.2.1 State.init "g"
      ⟨⟨7, "gps"⟩, 0, 2, 3, 4⟩ (by decide) rfl
  · exact (ecef_frame_write_once envW).2.2.2 ⟨[], some gW⟩
      (.landmark "l" ⟨0⟩) gW rfl

/-! ### C9: HandlePointCloud2Message time normalization -/

/-- The conversion loop keeps exactly the points whose float fields are
finite, in order, converted by `f`. -/
theorem convertPoints_eq (f : RawPoint → TimedPoint) (l : List RawPoint) :
    convertPoints f l = (l.filter (fun p => !p.bad)).map f := by
  induction l with
  | nil => rfl
  | cons p rest ih =>
      unfold convertPoints
      cases hb : p.bad <;> simp [List.filter_cons, hb, ih]

/-- Claim C9: per-point times are normalized by sensor type. For
"ouster" and "velodyne" each retained point's relative time is its own
per-point time minus the per-point time of the raw cloud's last point and
the stamp is the header stamp plus that last time; for "robosense" the
same per-point offset is applied but the stamp is the header stamp
unchanged; for any other sensor type every retained point gets relative
time 0 and the stamp is the header stamp; in all cases points with NaN or
infinite fields are dropped. -/
theorem pointCloud2_time_normalization (env : Env) (msg : PointCloud2Msg)
    (h : msg.points ≠ []) :
    PointCloud2Conversion env msg "ouster" =
      ((msg.points.filter (fun p => !p.bad)).map
          (fun p => ⟨p.x, p.y, p.z,
            p.t * (1 / 10 ^ 9) - (msg.points.getLast h).t * (1 / 10 ^ 9)⟩),
       env.fromRos msg.header.stamp + (msg.points.getLast h).t * (1 / 10 ^ 9))
    ∧ PointCloud2Conversion env msg "velodyne" =
      ((msg.points.filter (fun p => !p.bad)).map
          (fun p => ⟨p.x, p.y, p.z, p.t - (msg.points.getLast h).t⟩),
       env.fromRos msg.header.stamp + (msg.points.getLast h).t)
    ∧ PointCloud2Conversion env msg "robosense" =
      ((msg.points.filter (fun p => !p.bad)).map
          (fun p => ⟨p.x, p.y, p.z, p.t - (msg.points.getLast h).t⟩),
       env.fromRos msg.header.stamp)
    ∧ (∀ sensor_type : String, sensor_type ≠ "ouster" →
        sensor_type ≠ "velodyne" → sensor_type ≠ "robosense" →
        PointCloud2Conversion env msg sensor_type =
          ((msg.points.filter (fun p => !p.bad)).map
              (fun p => ⟨p.x, p.y, p.z, 0⟩),
           env.fromRos msg.header.stamp)) := by
  refine ⟨?_, ?_, ?_, ?_⟩
  · unfold PointCloud2Conversion
    rw [if_pos rfl]
    simp [convertPoints_eq, List.getLast?_eq_getLast _ h]
  · unfold PointCloud2Conversion
    rw [if_neg (by decide), if_pos rfl]
    simp [convertPoints_eq, List.getLast?_eq_getLast _ h]
  · unfold PointCloud2Conversion
    rw [if_neg (by decide), if_neg (by decide), if_pos rfl]
    simp [convertPoints_eq, List.getLast?_eq_getLast _ h]
  · intro sensor_type h1 h2 h3
    unfold PointCloud2Conversion
    rw [if_neg h1, if_neg h2, if_neg h3]
    simp [convertPoints_eq]

/-- Witness for C9 at the concrete cloud `msgPC`. -/
theorem pointCloud2_time_normalization_witness :
    PointCloud2Conversion envW msgPC "velodyne" =
      ((msgPC.points.filter (fun p => !p.bad)).map
          (fun p => ⟨p.x, p.y, p.z, p.t - (msgPC.points.getLast (by decide)).t⟩),
       envW.fromRos msgPC.header.stamp + (msgPC.points.getLast (by decide)).t)
    ∧ PointCloud2Conversion envW msgPC "other" =
      ((msgPC.points.filter (fun p => !p.bad)).map
          (fun p => ⟨p.x, p.y, p.z, 0⟩),
       envW.fromRos msgPC.header.stamp) := by
  constructor
  · exact (pointCloud2_time_normalization envW msgPC (by decide)).2.1
  · exact (pointCloud2_time_normalization envW msgPC (by decide)).2.2.2
      "other" (by decide) (by decide) (by decide)

/-! ### C3: subdivision slices partition the scan -/

/-- The concatenation of the first `j` subdivision slices is the prefix
of the point list up to index `n*j/k`. -/
theorem subdivisionSlices_take (points : List TimedPoint) (k : Nat) :
    ∀ j, j ≤ k →
      ((List.range j).map (subdivisionSlice points k)).flatten =
        points.take (points.length * j / k) := by
  intro j
  induction j with
  | zero => intro _; simp
  | succ j ih =>
      intro hj
      rw [List.range_succ, List.map_append, List.flatten_append, ih (by omega)]
      have hle : points.length * j / k ≤ points.length * (j + 1) / k :=
        Nat.div_le_div_right (Nat.mul_le_mul_left _ (by omega))
      simp only [List.map_cons, List.map_nil, List.flatten_cons,
        List.flatten_nil, List.append_nil, subdivisionSlice]
      rw [← List.take_add]
      congr 1
      omega

/-- Claim C3: `HandleLaserScan` splits the point list into `k` contiguous
slices, slice `i` running from `n*i/k` to `n*(i+1)/k` under integer
division, and the concatenation of all slices in order is the entire
original point list. -/
theorem laserScan_slices_concat (points : List TimedPoint) (k : Nat)
    (hk : 0 < k) :
    ((List.range k).map (subdivisionSlice points k)).flatten = points := by
  have h := subdivisionSlices_take points k k (Nat.le_refl k)
  rwa [Nat.mul_div_cancel _ hk, List.take_length] at h

/-- Witness for C3: five points split into two slices. -/
theorem laserScan_slices_concat_witness :
    ((List.range 2).map (subdivisionSlice
        [⟨1, 0, 0, -4⟩, ⟨2, 0, 0, -3⟩, ⟨3, 0, 0, -2⟩, ⟨4, 0, 0, -1⟩,
         ⟨5, 0, 0, 0⟩] 2)).flatten =
      [⟨1, 0, 0, -4⟩, ⟨2, 0, 0, -3⟩, ⟨3, 0, 0, -2⟩, ⟨4, 0, 0, -1⟩,
       ⟨5, 0, 0, 0⟩] :=
  laserScan_slices_concat
    [⟨1, 0, 0, -4⟩, ⟨2, 0, 0, -3⟩, ⟨3, 0, 0, -2⟩, ⟨4, 0, 0, -1⟩,
     ⟨5, 0, 0, 0⟩] 2 (by decide)

/-! ### C1: subdivisions are re-based to their end time -/

/-- Any output of the subdivision loop comes from some iteration index
of the loop, at some intermediate map state. -/
theorem runLaserScanSteps_mem (sensor_id : String) (time : Time)
    (points : List TimedPoint) (k : Nat) :
    ∀ (l : List Nat) (st : List (String × Time))
      (o : Time × List TimedPoint),
      o ∈ (runLaserScanSteps sensor_id time points k st l).1 →
      ∃ i ∈ l, ∃ s,
        (HandleLaserScanStep sensor_id time points k s i).1 = some o := by
  intro l
  induction l with
  | nil => intro st o ho; simp [runLaserScanSteps] at ho
  | cons i rest ih =>
      intro st o ho
      simp only [runLaserScanSteps, List.mem_append] at ho
      rcases ho with h | h
      · refine ⟨i, by simp, st, ?_⟩
        cases hs : (HandleLaserScanStep sensor_id time points k st i).1 with
        | none => rw [hs] at h; simp at h
        | some v =>
            rw [hs] at h
            simp only [Option.toList_some, List.mem_singleton] at h
            rw [h]
      · obtain ⟨i', hi', s, hs⟩ := ih _ o h
        exact ⟨i', by simp [hi'], s, hs⟩

/-- A subdivision with distinct start and end indices is non-empty (for a
loop index below the subdivision count). -/
theorem subdivisionSlice_ne_nil {points : List TimedPoint} {k i : Nat}
    (hik : i < k)
    (hne : points.length * i / k ≠ points.length * (i + 1) / k) :
    subdivisionSlice points k i ≠ [] := by
  have hk0 : 0 < k := Nat.lt_of_le_of_lt (Nat.zero_le i) hik
  have h1 : points.length * i / k ≤ points.length * (i + 1) / k :=
    Nat.div_le_div_right (Nat.mul_le_mul_left _ (by omega))
  have h2 : points.length * (i + 1) / k ≤ points.length := by
    calc points.length * (i + 1) / k
        ≤ points.length * k / k :=
          Nat.div_le_div_right (Nat.mul_le_mul_left _ hik)
      _ = points.length := Nat.mul_div_cancel _ hk0
  intro hcon
  have hlen := congrArg List.length hcon
  simp only [subdivisionSlice, List.length_take, List.length_drop,
    List.length_nil] at hlen
  omega

/-- Every subdivision slice is a contiguous infix of the point list. -/
theorem subdivisionSlice_infix (points : List TimedPoint) (k i : Nat) :
    ∃ pre post, points = pre ++ subdivisionSlice points k i ++ post := by
  refine ⟨points.take (points.length * i / k),
    (points.drop (points.length * i / k)).drop
      (points.length * (i + 1) / k - points.length * i / k), ?_⟩
  simp only [subdivisionSlice]
  rw [List.append_assoc, List.take_append_drop, List.take_append_drop]

/-- Lemma: `getLastD` commutes with `map` when the default is mapped too. -/
theorem getLastD_map {α β : Type} (f : α → β) :
    ∀ (l : List α) (d : α), (l.map f).getLastD (f d) = f (l.getLastD d) := by
  intro l
  induction l with
  | nil => intro d; rfl
  | cons a t ih =>
      intro d
      rw [List.map_cons, List.getLastD_cons, List.getLastD_cons, ih]

/-- What the subdivision loop emits at one iteration: a non-empty
contiguous slice of the scan, re-based by the relative time of its last
point, stamped with the scan time plus that last relative time. -/
theorem handleLaserScanStep_emits (sensor_id : String) (time : Time)
    (points : List TimedPoint) (k : Nat) (st : List (String × Time))
    (i : Nat) (hik : i < k) (o : Time × List TimedPoint)
    (ho : (HandleLaserScanStep sensor_id time points k st i).1 = some o) :
    ∃ sub : List TimedPoint, sub ≠ [] ∧
      (∃ pre post, points = pre ++ sub ++ post) ∧
      o.2 = sub.map (rebasePoint (sub.getLastD TimedPoint.dfl).t) ∧
      (o.2.getLastD TimedPoint.dfl).t = 0 ∧
      o.1 = time + (sub.getLastD TimedPoint.dfl).t := by
  simp only [HandleLaserScanStep] at ho
  by_cases he : points.length * i / k = points.length * (i + 1) / k
  · rw [if_pos he] at ho
    cases ho
  · rw [if_neg he] at ho
    have hsub : subdivisionSlice points k i ≠ [] :=
      subdivisionSlice_ne_nil hik he
    have hoV : o =
        (time + ((subdivisionSlice points k i).getLastD TimedPoint.dfl).t,
         (subdivisionSlice points k i).map
           (rebasePoint ((subdivisionSlice points k i).getLastD
             TimedPoint.dfl).t)) := by
      cases hf : mapFind st sensor_id with
      | none =>
          rw [hf] at ho
          exact (Option.some.inj ho).symm
      | some prev =>
          by_cases hle :
              time + ((subdivisionSlice points k i).getLastD
                TimedPoint.dfl).t ≤ prev
          · simp only [hf, if_pos hle] at ho
            cases ho
          · simp only [hf, if_neg hle] at ho
            exact (Option.some.inj ho).symm
    refine ⟨subdivisionSlice points k i, hsub,
      subdivisionSlice_infix points k i, ?_, ?_, ?_⟩
    · rw [hoV]
    · rw [hoV]
      have hgl : (subdivisionSlice points k i).getLast? =
          some ((subdivisionSlice points k i).getLast hsub) :=
        List.getLast?_eq_getLast _ hsub
      simp [List.getLastD_eq_getLast?, List.getLast?_map, hgl, rebasePoint]
    · rw [hoV]

/-- Claim C1: every subdivision that `HandleLaserScan` forwards is a
non-empty contiguous slice of the scan whose points all had the original
relative time of the slice's last point subtracted, so the re-based last
point's time component is exactly 0, and it is forwarded with timestamp
equal to the scan time plus that last point's original relative time. -/
theorem laserScan_rebase (sensor_id : String) (time : Time)
    (points : List TimedPoint) (k : Nat) (st : List (String × Time))
    (hne : points ≠ []) (o : Time × List TimedPoint)
    (ho : o ∈ (HandleLaserScan sensor_id time points k st).1) :
    ∃ sub : List TimedPoint, sub ≠ [] ∧
      (∃ pre post, points = pre ++ sub ++ post) ∧
      o.2 = sub.map (rebasePoint (sub.getLastD TimedPoint.dfl).t) ∧
      (o.2.getLastD TimedPoint.dfl).t = 0 ∧
      o.1 = time + (sub.getLastD TimedPoint.dfl).t := by
  unfold HandleLaserScan at ho
  rw [if_neg (by simp [hne])] at ho
  obtain ⟨i, hi, s, hs⟩ :=
    runLaserScanSteps_mem sensor_id time points k (List.range k) st o ho
  exact handleLaserScanStep_emits sensor_id time points k s i
    (List.mem_range.mp hi) o hs

/-- Witness for C1: a three-point scan with one subdivision. -/
theorem laserScan_rebase_witness :
    ∃ o ∈ (HandleLaserScan "laser0" 10
        [⟨1, 0, 0, -3⟩, ⟨2, 0, 0, -2⟩, ⟨3, 0, 0, 0⟩] 1 []).1,
      ∃ sub : List TimedPoint, sub ≠ [] ∧
        (∃ pre post,
          [(⟨1, 0, 0, -3⟩ : TimedPoint), ⟨2, 0, 0, -2⟩, ⟨3, 0, 0, 0⟩] =
            pre ++ sub ++ post) ∧
        o.2 = sub.map (rebasePoint (sub.getLastD TimedPoint.dfl).t) ∧
        (o.2.getLastD TimedPoint.dfl).t = 0 ∧
        o.1 = 10 + (sub.getLastD TimedPoint.dfl).t := by
  have hmem : ((10 : ℚ) + 0,
      [(⟨1, 0, 0, (-3 : ℚ) - 0⟩ : TimedPoint), ⟨2, 0, 0, (-2 : ℚ) - 0⟩,
       ⟨3, 0, 0, (0 : ℚ) - 0⟩]) ∈
      (HandleLaserScan "laser0" 10
        [⟨1, 0, 0, -3⟩, ⟨2, 0, 0, -2⟩, ⟨3, 0, 0, 0⟩] 1 []).1 := by
    have hrun : (HandleLaserScan "laser0" 10
        [(⟨1, 0, 0, -3⟩ : TimedPoint), ⟨2, 0, 0, -2⟩, ⟨3, 0, 0, 0⟩] 1 []).1 =
        [((10 : ℚ) + 0,
          [(⟨1, 0, 0, (-3 : ℚ) - 0⟩ : TimedPoint), ⟨2, 0, 0, (-2 : ℚ) - 0⟩,
           ⟨3, 0, 0, (0 : ℚ) - 0⟩])] := rfl
    rw [hrun]
    exact List.mem_singleton.mpr rfl
  exact ⟨_, hmem, laserScan_rebase "laser0" 10 _ 1 [] (by decide) _ hmem⟩

/-! ### C2: forwarded subdivision times are strictly increasing -/

/-- A subdivision whose end time is not after the sensor's recorded
previous subdivision time is skipped: nothing is emitted and the map is
unchanged. -/
theorem handleLaserScanStep_skip (sensor_id : String) (time : Time)
    (points : List TimedPoint) (k : Nat) (st : List (String × Time))
    (i : Nat) (prev : Time) (hf : mapFind st sensor_id = some prev)
    (hle : time + ((subdivisionSlice points k i).getLastD TimedPoint.dfl).t
      ≤ prev) :
    (HandleLaserScanStep sensor_id time points k st i).1 = none ∧
    (HandleLaserScanStep sensor_id time points k st i).2 = st := by
  simp only [HandleLaserScanStep]
  by_cases he : points.length * i / k = points.length * (i + 1) / k
  · rw [if_pos he]
    exact ⟨rfl, rfl⟩
  · rw [if_neg he]
    simp only [hf, if_pos hle]
    refine ⟨?_, ?_⟩ <;> trivial

/-- Lemma: `map::operator[] = v` makes the key map to `v`. -/
theorem mapFind_mapInsert_self (m : List (String × Time)) (key : String)
    (v : Time) :
    mapFind (mapInsert m key v) key = some v := by
  induction m with
  | nil => simp [mapInsert, mapFind]
  | cons p rest ih =>
      by_cases h : p.1 = key
      · simp [mapInsert, mapFind, h]
      · simp [mapInsert, mapFind, h, ih]

/-- The empty run satisfies the scan invariant. -/
theorem ScanInv_refl (sensor_id : String) (st : List (String × Time)) :
    ScanInv sensor_id st [] st := by
  refine ⟨?_, ?_, ?_⟩
  · cases h : mapFind st sensor_id <;> simp [h]
  · intro x hx y hy
    cases h : mapFind st sensor_id with
    | none => rw [h] at hx; simp at hx
    | some v =>
        rw [h] at hx
        simp at hx
        rw [h] at hy
        rw [hx, Option.some.inj hy]
  · intro h
    exact ⟨h, rfl⟩

/-- The scan invariant composes along sequenced runs. -/
theorem ScanInv_comp {sensor_id : String} {st st1 st2 : List (String × Time)}
    {outs1 outs2 : List (Time × List TimedPoint)}
    (h1 : ScanInv sensor_id st outs1 st1)
    (h2 : ScanInv sensor_id st1 outs2 st2) :
    ScanInv sensor_id st (outs1 ++ outs2) st2 := by
  obtain ⟨A1, B1, C1⟩ := h1
  obtain ⟨A2, B2, Cmid⟩ := h2
  refine ⟨?_, ?_, ?_⟩
  · rw [List.map_append, ← List.append_assoc, List.chain'_append]
    refine ⟨A1, A2.right_of_append, ?_⟩
    intro x hx y hy
    cases hm : mapFind st1 sensor_id with
    | none =>
        obtain ⟨hst, hout⟩ := C1 hm
        rw [hst, hout] at hx
        simp at hx
    | some m =>
        have hxm : x ≤ m :=
          B1 x (List.mem_of_getLast?_eq_some hx) m hm
        have A2x : List.Chain' (· < ·) ([m] ++ List.map Prod.fst outs2) := by
          simpa [hm] using A2
        have hrel := (List.chain'_append.mp A2x).2.2 m (by simp) y hy
        exact lt_of_le_of_lt hxm hrel
  · intro x hx y hy
    rw [List.map_append, ← List.append_assoc] at hx
    rcases List.mem_append.mp hx with hx1 | hx2
    · cases hm : mapFind st1 sensor_id with
      | none =>
          obtain ⟨hst, hout⟩ := C1 hm
          rw [hst, hout] at hx1
          simp at hx1
      | some m =>
          have hxm : x ≤ m := B1 x hx1 m hm
          have hmy : m ≤ y := B2 m (by simp [hm]) y hy
          exact le_trans hxm hmy
    · exact B2 x (List.mem_append_right _ hx2) y hy
  · intro h
    obtain ⟨hm1, ho2⟩ := Cmid h
    obtain ⟨hm0, ho1⟩ := C1 hm1
    exact ⟨hm0, by simp [ho1, ho2]⟩

/-- One iteration of the subdivision loop preserves the scan invariant. -/
theorem handleLaserScanStep_inv (sensor_id : String) (time : Time)
    (points : List TimedPoint) (k : Nat) (st : List (String × Time))
    (i : Nat) :
    ScanInv sensor_id st
      ((HandleLaserScanStep sensor_id time points k st i).1.toList)
      ((HandleLaserScanStep sensor_id time points k st i).2) := by
  simp only [HandleLaserScanStep]
  by_cases he : points.length * i / k = points.length * (i + 1) / k
  · rw [if_pos he]
    exact ScanInv_refl sensor_id st
  · rw [if_neg he]
    cases hf : mapFind st sensor_id with
    | none =>
        simp only [hf]
        refine ⟨?_, ?_, ?_⟩
        · simp [hf]
        · intro x hx y hy
          rw [mapFind_mapInsert_self] at hy
          rw [hf] at hx
          simp only [Option.toList_none, Option.toList_some,
            List.nil_append, List.map_cons, List.map_nil,
            List.mem_singleton] at hx
          rw [hx, Option.some.inj hy]
        · intro hnone
          rw [mapFind_mapInsert_self] at hnone
          cases hnone
    | some prev =>
        by_cases hle :
            time + ((subdivisionSlice points k i).getLastD
              TimedPoint.dfl).t ≤ prev
        · simp only [hf, if_pos hle]
          exact ScanInv_refl sensor_id st
        · simp only [hf, if_neg hle]
          have hlt : prev <
              time + ((subdivisionSlice points k i).getLastD
                TimedPoint.dfl).t := not_le.mp hle
          refine ⟨?_, ?_, ?_⟩
          · rw [hf]
            exact List.chain'_pair.mpr hlt
          · intro x hx y hy
            rw [mapFind_mapInsert_self] at hy
            rw [← Option.some.inj hy]
            rw [hf] at hx
            simp only [Option.toList_some, List.map_cons, List.map_nil,
              List.singleton_append, List.mem_cons, List.mem_singleton,
              List.not_mem_nil, or_false] at hx
            rcases hx with hx | hx
            · rw [hx]; exact le_of_lt hlt
            · rw [hx]
          · intro hnone
            rw [mapFind_mapInsert_self] at hnone
            cases hnone

/-- The whole subdivision loop preserves the scan invariant. -/
theorem runLaserScanSteps_inv (sensor_id : String) (time : Time)
    (points : List TimedPoint) (k : Nat) :
    ∀ (l : List Nat) (st : List (String × Time)),
      ScanInv sensor_id st
        (runLaserScanSteps sensor_id time points k st l).1
        (runLaserScanSteps sensor_id time points k st l).2 := by
  intro l
  induction l with
  | nil => intro st; exact ScanInv_refl sensor_id st
  | cons i rest ih =>
      intro st
      simp only [runLaserScanSteps]
      exact ScanInv_comp
        (handleLaserScanStep_inv sensor_id time points k st i) (ih _)

/-- One `HandleLaserScan` call preserves the scan invariant. -/
theorem handleLaserScan_inv (sensor_id : String) (time : Time)
    (points : List TimedPoint) (k : Nat) (st : List (String × Time)) :
    ScanInv sensor_id st (HandleLaserScan sensor_id time points k st).1
      (HandleLaserScan sensor_id time points k st).2 := by
  unfold HandleLaserScan
  by_cases h : points.isEmpty
  · rw [if_pos h]
    exact ScanInv_refl sensor_id st
  · rw [if_neg h]
    exact runLaserScanSteps_inv sensor_id time points k _ st

/-- A whole sequence of laser scans preserves the scan invariant. -/
theorem runLaserScans_inv (sensor_id : String) (k : Nat) :
    ∀ (scans : List (Time × List TimedPoint)) (st : List (String × Time)),
      ScanInv sensor_id st (runLaserScans sensor_id k st scans).1
        (runLaserScans sensor_id k st scans).2 := by
  intro scans
  induction scans with
  | nil => intro st; exact ScanInv_refl sensor_id st
  | cons s rest ih =>
      intro st
      obtain ⟨time, points⟩ := s
      simp only [runLaserScans]
      exact ScanInv_comp (handleLaserScan_inv sensor_id time points k st)
        (ih _)

/-- Claim C2: a subdivision whose timestamp is not after the recorded
previous subdivision time of its sensor is skipped (nothing emitted, map
unchanged), and across any sequence of laser scans the recorded previous
time followed by the forwarded subdivision timestamps of a sensor is
strictly increasing. -/
theorem laserScan_subdivisions_monotone :
    (∀ (sensor_id : String) (time : Time) (points : List TimedPoint)
        (k : Nat) (st : List (String × Time)) (i : Nat) (prev : Time),
        mapFind st sensor_id = some prev →
        time + ((subdivisionSlice points k i).getLastD TimedPoint.dfl).t
          ≤ prev →
        (HandleLaserScanStep sensor_id time points k st i).1 = none ∧
        (HandleLaserScanStep sensor_id time points k st i).2 = st)
    ∧ (∀ (sensor_id : String) (k : Nat) (st : List (String × Time))
        (scans : List (Time × List TimedPoint)),
        List.Chain' (· < ·)
          ((mapFind st sensor_id).toList ++
            ((runLaserScans sensor_id k st scans).1.map Prod.fst))) := by
  constructor
  · intro sensor_id time points k st i prev hf hle
    exact handleLaserScanStep_skip sensor_id time points k st i prev hf hle
  · intro sensor_id k st scans
    exact (runLaserScans_inv sensor_id k scans st).1

/-- Witness for C2: a subdivision at time 10 is skipped when the sensor
already recorded time 100, and a concrete run's forwarded timestamps are
strictly increasing. -/
theorem laserScan_subdivisions_monotone_witness :
    ((HandleLaserScanStep "l" 10 [⟨1, 0, 0, 0⟩] 1 [("l", 100)] 0).1 = none
      ∧ (HandleLaserScanStep "l" 10 [⟨1, 0, 0, 0⟩] 1 [("l", 100)] 0).2 =
          [("l", 100)])
    ∧ List.Chain' (· < ·)
        ((mapFind [("l", (5 : ℚ))] "l").toList ++
          ((runLaserScans "l" 1 [("l", 5)]
              [(10, [⟨1, 0, 0, 0⟩])]).1.map Prod.fst)) := by
  constructor
  · refine laserScan_subdivisions_monotone.1 "l" 10 [⟨1, 0, 0, 0⟩] 1
      [("l", 100)] 0 100 rfl ?_
    have h0 : ((subdivisionSlice [(⟨1, 0, 0, 0⟩ : TimedPoint)] 1 0).getLastD
        TimedPoint.dfl).t = 0 := rfl
    rw [h0]
    norm_num
  · exact laserScan_subdivisions_monotone.2 "l" 1 [("l", 5)]
      [(10, [⟨1, 0, 0, 0⟩])]

/-! ### C4: the adapter is not stateless per call -/

/-- Counterexample to claim C4. The bridge is not stateless: handling a
laser scan updates `sensor_to_previous_subdivision_time_`, and for the
fixed collaborators `envW` the record forwarded for the same final laser
scan message differs between the empty history and a history containing
an earlier scan at time 100 (which makes the later subdivision at time 10
be skipped). -/
theorem adapter_stateless_counterexample :
    (handleMessage envW (runMessages envW State.init
        [.laserScan "l" 100 "laser" [⟨1, 0, 0, 0⟩]])
        (.laserScan "l" 10 "laser" [⟨1, 0, 0, 0⟩])).1
      ≠ (handleMessage envW State.init
          (.laserScan "l" 10 "laser" [⟨1, 0, 0, 0⟩])).1
    ∧ (handleMessage envW State.init
        (.laserScan "l" 100 "laser" [⟨1, 0, 0, 0⟩])).2 ≠ State.init := by
  have h1 : (handleMessage envW State.init
      (.laserScan "l" 10 "laser" [⟨1, 0, 0, 0⟩])).1.length = 1 := rfl
  have hst : runMessages envW State.init
      [.laserScan "l" 100 "laser" [⟨1, 0, 0, 0⟩]] =
      (⟨[("l", (100 : ℚ) + 0)], none⟩ : State) := rfl
  have hskip := handleLaserScanStep_skip "l" 10 [⟨1, 0, 0, 0⟩] 2
      [("l", (100 : ℚ) + 0)] 1 ((100 : ℚ) + 0) rfl
      (by
        have h0 : ((subdivisionSlice [(⟨1, 0, 0, 0⟩ : TimedPoint)] 2 1).getLastD
            TimedPoint.dfl).t = 0 := rfl
        rw [h0]
        norm_num)
  have h2 : (handleMessage envW (⟨[("l", (100 : ℚ) + 0)], none⟩ : State)
      (.laserScan "l" 10 "laser" [⟨1, 0, 0, 0⟩])).1 = [] := by
    obtain ⟨hs1, hs2⟩ := hskip
    simp only [handleMessage, HandleLaserScan]
    rw [if_neg (by decide)]
    rw [show envW.num_subdivisions_per_laser_scan = 2 from rfl]
    rw [show List.range 2 = [0, 1] from rfl]
    simp only [runLaserScanSteps]
    rw [show HandleLaserScanStep "l" 10 [(⟨1, 0, 0, 0⟩ : TimedPoint)] 2
        [("l", (100 : ℚ) + 0)] 0 = (none, [("l", (100 : ℚ) + 0)]) from rfl]
    simp only [Option.toList_none, List.nil_append]
    rw [hs1]
    simp
  constructor
  · rw [hst, h2]
    intro heq
    rw [← heq] at h1
    simp at h1
  · have hS : (handleMessage envW State.init
        (.laserScan "l" 100 "laser" [⟨1, 0, 0, 0⟩])).2 =
        (⟨[("l", (100 : ℚ) + 0)], none⟩ : State) := rfl
    rw [hS]
    intro heq
    have hmap := congrArg
      (fun s : State => s.sensor_to_previous_subdivision_time) heq
    simp [State.init] at hmap

/-- Claim C4 as amended: only the NavSatFix and laser-scan handlers are
stateful. Handling odometry, IMU, point-cloud or landmark messages leaves
the bridge state unchanged, and for fixed external collaborators the
records they forward do not depend on the bridge state, hence not on the
message history. -/
theorem adapter_stateless_amended (env : Env) (st st2 : State) :
    (∀ (sensor_id : String) (m : OdometryMsg),
        (handleMessage env st (.odometry sensor_id m)).2 = st ∧
        (handleMessage env st (.odometry sensor_id m)).1 =
          (handleMessage env st2 (.odometry sensor_id m)).1)
    ∧ (∀ (sensor_id : String) (m : ImuMsg),
        (handleMessage env st (.imu sensor_id m)).2 = st ∧
        (handleMessage env st (.imu sensor_id m)).1 =
          (handleMessage env st2 (.imu sensor_id m)).1)
    ∧ (∀ (sensor_id : String) (m : PointCloud2Msg) (sensor_type : String),
        (handleMessage env st (.pointCloud2 sensor_id m sensor_type)).2 = st ∧
        (handleMessage env st (.pointCloud2 sensor_id m sensor_type)).1 =
          (handleMessage env st2 (.pointCloud2 sensor_id m sensor_type)).1)
    ∧ (∀ (sensor_id : String) (d : LandmarkData),
        (handleMessage env st (.landmark sensor_id d)).2 = st ∧
        (handleMessage env st (.landmark sensor_id d)).1 =
          (handleMessage env st2 (.landmark sensor_id d)).1) :=
  ⟨fun _ _ => ⟨rfl, rfl⟩, fun _ _ => ⟨rfl, rfl⟩,
   fun _ _ _ => ⟨rfl, rfl⟩, fun _ _ => ⟨rfl, rfl⟩⟩
